import Mathlib

/-!
# lessons/examples/hello1.cpp

A shallow embedding of the program

```
int main() {
  using namespace std::literals;
  std::string message{"Hello, World!"s};
  std::cout << message << "\n"s;
  return EXIT_SUCCESS;
}
```

The standard streams are explicit state.  `main` is given twice: as a
state-passing function, and as a machine that performs the operations of the
body one at a time (with the local variable `message` in its store); the two
are shown to agree.
-/

namespace Hello1

/-! ## Streams -/

/-- An output stream such as `std::cout`, in its good state: the operands of the
stream insertions performed on it so far, oldest first.  Every call of
`operator<<` records one entry. -/
structure OStream where
  writes : List String
deriving DecidableEq, Repr

/-- A stream nothing has been inserted into. -/
def OStream.empty : OStream := ⟨[]⟩

/-- The character sequence the stream has received: the inserted strings, in order. -/
def OStream.contents (os : OStream) : String :=
  String.join os.writes

/-- The call `os << s` for a `std::string` operand: the characters of `s` are
appended to the stream, and the stream is the result (so insertions chain). -/
def OStream.insert (os : OStream) (s : String) : OStream :=
  ⟨os.writes ++ [s]⟩

/-- The standard streams of the process: the unread characters of standard input,
and the two output streams. -/
structure World where
  cin : String
  cout : OStream
  cerr : OStream
deriving DecidableEq, Repr

/-! ## The program -/

/-- Modelled from the spec: the macro `EXIT_SUCCESS` comes from `<cstdlib>`, which is
not part of the repository; the spec gives the success status as exit code 0. -/
def EXIT_SUCCESS : Int := 0

/-- The function `main` of `hello1.cpp`, passing the standard streams explicitly.
It returns the streams as it leaves them and its return value. -/
def main (w : World) : World × Int :=
  let message : String := "Hello, World!"
  let w1 : World := { w with cout := (w.cout.insert message).insert "\n" }
  (w1, EXIT_SUCCESS)

/-- The streams at process start: nothing written yet, standard input unread. -/
def World.fresh (stdin : String) : World :=
  { cin := stdin, cout := OStream.empty, cerr := OStream.empty }

/-- One invocation of the program: the runtime starts `main` on fresh streams.
`main` is declared without parameters, so the command-line arguments are not
handed to it. -/
def invoke (_argv : List String) (stdin : String) : World × Int :=
  main (World.fresh stdin)

/-! ## The body of `main`, one operation at a time -/

/-- The program points of `main`: before each operation of the body, and after the
`return`. -/
inductive Pc where
  /-- before `std::string message{"Hello, World!"s};` -/
  | declMessage
  /-- before `std::cout << message` -/
  | insertMessage
  /-- before `... << "\n"s` -/
  | insertNewline
  /-- before `return EXIT_SUCCESS;` -/
  | returnStmt
  /-- after the return: `main` has returned the given value -/
  | exited (status : Int)
deriving DecidableEq, Repr

/-- A configuration of the running program: program point, the local variable
`message` (absent before its declaration), and the standard streams. -/
structure Config where
  pc : Pc
  message : Option String
  world : World
deriving DecidableEq, Repr

/-- The configuration in which `main` is entered. -/
def Config.start (w : World) : Config :=
  { pc := Pc.declMessage, message := none, world := w }

/-- One operation of the body of `main`.  `none`: there is nothing to execute. -/
def step (c : Config) : Option Config :=
  match c.pc with
  | Pc.declMessage =>
      some { c with pc := Pc.insertMessage, message := some "Hello, World!" }
  | Pc.insertMessage =>
      match c.message with
      | some m =>
          some { c with pc := Pc.insertNewline,
                        world := { c.world with cout := c.world.cout.insert m } }
      | none => none
  | Pc.insertNewline =>
      some { c with pc := Pc.returnStmt,
                    world := { c.world with cout := c.world.cout.insert "\n" } }
  | Pc.returnStmt =>
      some { c with pc := Pc.exited EXIT_SUCCESS }
  | Pc.exited _ => none

/-- The configurations an execution of `main` entered with streams `w` passes through. -/
inductive Reachable (w : World) : Config → Prop where
  | start : Reachable w (Config.start w)
  | next {c c' : Config} : Reachable w c → step c = some c' → Reachable w c'

/-- The configurations of the execution from `c`, in order, for at most `fuel` operations. -/
def execTrace : Nat → Config → List Config
  | 0, c => [c]
  | fuel + 1, c =>
      match step c with
      | none => [c]
      | some c' => c :: execTrace fuel c'

/-- The two states of the program seen from outside. -/
inductive Phase where
  | Running
  | Terminated (status : Int)
deriving DecidableEq, Repr

/-- The state a configuration is in: `Terminated` once `main` has returned. -/
def phase (c : Config) : Phase :=
  match c.pc with
  | Pc.exited s => Phase.Terminated s
  | _ => Phase.Running

/-- The step relation over `Running` and `Terminated`: the program moves from `p` to
`q` when some operation of an execution takes a configuration in state `p` to one in
a different state `q`.  Operations that stay within a state are internal to it. -/
def PhaseStep (w : World) (p q : Phase) : Prop :=
  ∃ c c', Reachable w c ∧ step c = some c' ∧ phase c = p ∧ phase c' = q ∧ p ≠ q

/-- The states an execution passes through, each listed once per visit. -/
def phaseTrace (fuel : Nat) (c : Config) : List Phase :=
  ((execTrace fuel c).map phase).destutter (· ≠ ·)

/-! ## Auxiliary facts -/

theorem OStream.contents_insert (os : OStream) (s : String) :
    (os.insert s).contents = os.contents ++ s := by
  simp [OStream.insert, OStream.contents, String.join, List.foldl_append]

theorem OStream.contents_empty : OStream.empty.contents = "" := rfl

theorem OStream.writes_insert (os : OStream) (s : String) :
    (os.insert s).writes = os.writes ++ [s] := rfl

theorem main_fst (w : World) :
    (main w).1 = { w with cout := (w.cout.insert "Hello, World!").insert "\n" } := rfl

theorem main_cout_contents (w : World) :
    (main w).1.cout.contents = w.cout.contents ++ "Hello, World!\n" := by
  rw [main_fst]
  simp only [OStream.contents_insert, String.append_assoc]
  rfl

/-- Every configuration of an execution is one of five: the program points in order,
with `message` holding the literal from its declaration on and the streams holding
what has been inserted up to that point. -/
theorem reachable_cases {w : World} {c : Config} (h : Reachable w c) :
    c = Config.start w ∨
    c = ⟨Pc.insertMessage, some "Hello, World!", w⟩ ∨
    c = ⟨Pc.insertNewline, some "Hello, World!",
          { w with cout := w.cout.insert "Hello, World!" }⟩ ∨
    c = ⟨Pc.returnStmt, some "Hello, World!", (main w).1⟩ ∨
    c = ⟨Pc.exited EXIT_SUCCESS, some "Hello, World!", (main w).1⟩ := by
  induction h with
  | start => exact Or.inl rfl
  | next _ hs ih =>
    rcases ih with rfl | rfl | rfl | rfl | rfl <;>
      simp [step, Config.start] at hs <;> subst hs <;> simp [main]

theorem execTrace_of_step_none {c : Config} (h : step c = none) (fuel : Nat) :
    execTrace fuel c = [c] := by
  cases fuel <;> simp [execTrace, h]

/-- The machine and the function `main` agree: from the entry configuration the
execution performs four operations and stops, `main` having returned, with the
streams as `main` leaves them. -/
theorem execTrace_start (w : World) (fuel : Nat) (h : 4 ≤ fuel) :
    execTrace fuel (Config.start w) =
      [Config.start w,
       ⟨Pc.insertMessage, some "Hello, World!", w⟩,
       ⟨Pc.insertNewline, some "Hello, World!",
          { w with cout := w.cout.insert "Hello, World!" }⟩,
       ⟨Pc.returnStmt, some "Hello, World!", (main w).1⟩,
       ⟨Pc.exited (main w).2, some "Hello, World!", (main w).1⟩] := by
  obtain ⟨k, rfl⟩ : ∃ k, fuel = k + 4 := ⟨fuel - 4, by omega⟩
  simp [execTrace, step, Config.start, main, execTrace_of_step_none]

theorem reachable_insertMessage (w : World) :
    Reachable w ⟨Pc.insertMessage, some "Hello, World!", w⟩ :=
  Reachable.next Reachable.start rfl

theorem reachable_insertNewline (w : World) :
    Reachable w ⟨Pc.insertNewline, some "Hello, World!",
      { w with cout := w.cout.insert "Hello, World!" }⟩ :=
  Reachable.next (reachable_insertMessage w) rfl

theorem reachable_returnStmt (w : World) :
    Reachable w ⟨Pc.returnStmt, some "Hello, World!", (main w).1⟩ :=
  Reachable.next (reachable_insertNewline w) rfl

theorem reachable_exited (w : World) :
    Reachable w ⟨Pc.exited EXIT_SUCCESS, some "Hello, World!", (main w).1⟩ :=
  Reachable.next (reachable_returnStmt w) rfl

/-! ## Standard output -/

/-- C1: run with no arguments, `main` leaves standard output, empty at the start,
equal to the 14 characters of `Hello, World!` followed by one newline: the 13
characters of the greeting, then the newline, which is the only newline and the last
character.  In general `main` appends exactly this text to what standard output
already holds. -/
theorem invoke_stdout_hello_world (stdin : String) :
    (World.fresh stdin).cout.contents = "" ∧
    (invoke [] stdin).1.cout.contents = "Hello, World!\n" ∧
    (invoke [] stdin).1.cout.contents.length = 14 ∧
    "Hello, World!".length = 13 ∧
    (invoke [] stdin).1.cout.contents.data = "Hello, World!".data ++ [Char.ofNat 10] ∧
    (invoke [] stdin).1.cout.contents.data.count (Char.ofNat 10) = 1 ∧
    (invoke [] stdin).1.cout.contents.data.getLast? = some (Char.ofNat 10) ∧
    ∀ w : World, (main w).1.cout.contents = w.cout.contents ++ "Hello, World!\n" := by
  have h : (invoke [] stdin).1.cout.contents = "Hello, World!\n" := rfl
  refine ⟨rfl, h, ?_, by decide, ?_, ?_, ?_, main_cout_contents⟩ <;> rw [h] <;> decide

/-! ## Exit status -/

/-- C2: the value `main` returns is `EXIT_SUCCESS`, which is 0, whatever the state of
the streams; and on the execution of its body the only value `main` ever returns is
that one. -/
theorem main_returns_exit_success (w : World) :
    (main w).2 = EXIT_SUCCESS ∧ EXIT_SUCCESS = 0 ∧
    ∀ (c : Config) (status : Int),
      Reachable w c → c.pc = Pc.exited status → status = EXIT_SUCCESS ∧ status = 0 := by
  refine ⟨rfl, rfl, ?_⟩
  intro c status hr hpc
  rcases reachable_cases hr with rfl | rfl | rfl | rfl | rfl <;>
    simp [Config.start] at hpc
  subst hpc
  exact ⟨rfl, rfl⟩

/-- Witness of C2 at the execution on fresh streams: the configuration after the four
operations of the body is reached, and there `main` has returned 0. -/
theorem main_returns_exit_success_witness :
    Reachable (World.fresh "")
      ⟨Pc.exited 0, some "Hello, World!", (main (World.fresh "")).1⟩ ∧
    ((0 : Int) = EXIT_SUCCESS ∧ (0 : Int) = 0) :=
  have hr : Reachable (World.fresh "")
      ⟨Pc.exited 0, some "Hello, World!", (main (World.fresh "")).1⟩ :=
    Reachable.next (Reachable.next (Reachable.next (Reachable.next Reachable.start rfl) rfl)
      rfl) rfl
  ⟨hr, (main_returns_exit_success (World.fresh "")).2.2 _ 0 hr rfl⟩

/-! ## Independence of the environment -/

/-- C3: two invocations with any command-line arguments and any standard input write
the same standard output (as a text and write by write), the same standard error, and
return the same status; each leaves its standard input as it received it. -/
theorem invoke_independent_of_environment
    (argv₁ argv₂ : List String) (stdin₁ stdin₂ : String) :
    (invoke argv₁ stdin₁).1.cout = (invoke argv₂ stdin₂).1.cout ∧
    (invoke argv₁ stdin₁).1.cout.contents = (invoke argv₂ stdin₂).1.cout.contents ∧
    (invoke argv₁ stdin₁).1.cerr = (invoke argv₂ stdin₂).1.cerr ∧
    (invoke argv₁ stdin₁).2 = (invoke argv₂ stdin₂).2 ∧
    (invoke argv₁ stdin₁).1.cin = stdin₁ ∧
    (invoke argv₂ stdin₂).1.cin = stdin₂ :=
  ⟨rfl, rfl, rfl, rfl, rfl, rfl⟩

/-! ## Standard error -/

/-- C4: `main` leaves standard error as it found it, so a standard error that is empty
at the start is empty when `main` returns; standard input is untouched as well, and
standard output is the one stream that changes. -/
theorem main_stderr_unchanged (w : World) :
    (main w).1.cerr = w.cerr ∧
    (main w).1.cin = w.cin ∧
    (main w).1.cout ≠ w.cout ∧
    ∀ (argv : List String) (stdin : String),
      (World.fresh stdin).cerr = OStream.empty ∧
      (invoke argv stdin).1.cerr = OStream.empty ∧
      (invoke argv stdin).1.cerr.contents = "" := by
  refine ⟨rfl, rfl, ?_, fun _ _ => ⟨rfl, rfl, rfl⟩⟩
  intro h
  have hlen := congrArg (fun os : OStream => os.writes.length) h
  simp [main, OStream.insert] at hlen

/-! ## Write events -/

/-- C5, as stated, fails: on fresh streams the write events `main` records on
`std::cout` are not one in number. -/
theorem main_cout_writes_length_ne_one :
    ¬ ((invoke [] "").1.cout.writes.length = 1) := by
  decide

/-- C5, amended: `main` performs two stream insertions on `std::cout`, chained in the
one statement `std::cout << message << "\n"s`: it adds exactly two write events, the
message and then the newline string, after those already recorded.  On fresh streams
the trace has length two, and the two events together are the text `Hello, World!`
with its newline. -/
theorem main_cout_writes (w : World) :
    (main w).1.cout.writes = w.cout.writes ++ ["Hello, World!", "\n"] ∧
    (main w).1.cout.writes.length = w.cout.writes.length + 2 ∧
    ∀ (argv : List String) (stdin : String),
      (invoke argv stdin).1.cout.writes = ["Hello, World!", "\n"] ∧
      (invoke argv stdin).1.cout.writes.length = 2 ∧
      String.join (invoke argv stdin).1.cout.writes = "Hello, World!\n" := by
  refine ⟨?_, ?_, fun _ _ => ⟨rfl, rfl, rfl⟩⟩ <;> simp [main, OStream.insert]

/-! ## The two-state view -/

/-- C6: over the states `Running` and `Terminated` the program has exactly one
transition, from `Running` to `Terminated` with the success status.  Execution starts
in `Running`; it passes through `Running` and then `Terminated` and no other state, so
it makes one step in this view; while in `Running` there is always a next operation
and (the operation being a function of the configuration) only one, so nothing
branches; nothing is executed in `Terminated`; and when the transition is taken the
write is complete: standard output has received `Hello, World!` and the newline. -/
theorem phase_step_single_transition (w : World) :
    phase (Config.start w) = Phase.Running ∧
    (∀ p q : Phase,
      PhaseStep w p q ↔ p = Phase.Running ∧ q = Phase.Terminated EXIT_SUCCESS) ∧
    (∀ fuel : Nat, 4 ≤ fuel →
      phaseTrace fuel (Config.start w) = [Phase.Running, Phase.Terminated EXIT_SUCCESS]) ∧
    (∀ c : Config, Reachable w c → phase c = Phase.Running → ∃! c', step c = some c') ∧
    (∀ (c : Config) (status : Int), phase c = Phase.Terminated status → step c = none) ∧
    (∀ c c' : Config, Reachable w c → step c = some c' → phase c' ≠ Phase.Running →
      phase c = Phase.Running ∧
      c.world.cout.contents = w.cout.contents ++ "Hello, World!\n" ∧
      c'.world = c.world) := by
  refine ⟨rfl, ?_, ?_, ?_, ?_, ?_⟩
  · intro p q
    constructor
    · rintro ⟨c, c', hr, hs, rfl, rfl, hne⟩
      rcases reachable_cases hr with rfl | rfl | rfl | rfl | rfl <;>
        simp [step, Config.start] at hs <;> subst hs <;> simp [phase, Config.start] at hne ⊢
    · rintro ⟨rfl, rfl⟩
      exact ⟨_, _, reachable_returnStmt w, rfl, rfl, rfl, by simp⟩
  · intro fuel hfuel
    rw [phaseTrace, execTrace_start w fuel hfuel]
    simp [phase, main, Config.start, List.destutter, List.destutter']
  · intro c hr hph
    rcases reachable_cases hr with rfl | rfl | rfl | rfl | rfl <;>
      simp [step, Config.start, phase] at hph ⊢
  · intro c status hph
    unfold phase at hph
    unfold step
    split at hph <;> simp_all
  · intro c c' hr hs hph
    rcases reachable_cases hr with rfl | rfl | rfl | rfl | rfl <;>
      simp [step, Config.start] at hs <;> subst hs <;> simp [phase, Config.start] at hph ⊢
    exact main_cout_contents w

/-- Witness of C6 on fresh streams: with fuel for the four operations of the body, the
states passed through are `Running`, then `Terminated` with the success status. -/
theorem phase_step_single_transition_witness :
    4 ≤ 4 ∧
    phaseTrace 4 (Config.start (World.fresh "")) =
      [Phase.Running, Phase.Terminated EXIT_SUCCESS] :=
  ⟨Nat.le_refl 4, (phase_step_single_transition (World.fresh "")).2.2.1 4 (Nat.le_refl 4)⟩

/-! ## The local variable `message` -/

/-- C7: at the point where `message` is inserted into `std::cout` its value is the
literal `Hello, World!` it was constructed from, which has length 13 and contains no
newline; the insertion writes that value and leaves `message` as it was.  More
generally, from its construction on `message` holds the literal at every point of the
execution, and no operation changes it. -/
theorem message_unaltered (w : World) (c : Config)
    (hr : Reachable w c) (hpc : c.pc = Pc.insertMessage) :
    c.message = some "Hello, World!" ∧
    "Hello, World!".length = 13 ∧
    Char.ofNat 10 ∉ "Hello, World!".data ∧
    (∃ c', step c = some c' ∧
      c'.world.cout = c.world.cout.insert "Hello, World!" ∧
      c'.message = c.message) ∧
    (∀ d : Config, Reachable w d → d.pc ≠ Pc.declMessage →
      d.message = some "Hello, World!" ∧
      ∀ d', step d = some d' → d'.message = d.message) := by
  refine ⟨?_, by decide, by decide, ?_, ?_⟩
  · rcases reachable_cases hr with rfl | rfl | rfl | rfl | rfl <;>
      simp [Config.start] at hpc ⊢
  · rcases reachable_cases hr with rfl | rfl | rfl | rfl | rfl <;>
      simp [Config.start, step] at hpc ⊢
  · intro d hd hne
    rcases reachable_cases hd with rfl | rfl | rfl | rfl | rfl <;>
      simp [Config.start, step] at hne ⊢

/-- Witness of C7 on fresh streams, at the configuration before the first insertion. -/
theorem message_unaltered_witness :
    Reachable (World.fresh "") ⟨Pc.insertMessage, some "Hello, World!", World.fresh ""⟩ ∧
    (⟨Pc.insertMessage, some "Hello, World!", World.fresh ""⟩ : Config).pc
      = Pc.insertMessage ∧
    (⟨Pc.insertMessage, some "Hello, World!", World.fresh ""⟩ : Config).message
      = some "Hello, World!" :=
  have hr := Reachable.next (Reachable.start : Reachable (World.fresh "") _)
    (rfl : step (Config.start (World.fresh "")) =
      some ⟨Pc.insertMessage, some "Hello, World!", World.fresh ""⟩)
  ⟨hr, rfl, (message_unaltered (World.fresh "") _ hr rfl).1⟩

/-! ## The line terminator -/

/-- C8: when `main` has returned, on streams that were fresh at the start, standard
output is the value of `message` followed by the one-character string whose character
is code point 10, and nothing else: two writes, the message and the terminator.  Its
length is the length of the message plus one, which is 14, and without its last
character it is the message.  This output is the one the invocation produces. -/
theorem output_is_message_then_newline (stdin : String) (c : Config) (status : Int)
    (hr : Reachable (World.fresh stdin) c) (hpc : c.pc = Pc.exited status) :
    ∃ message : String,
      c.message = some message ∧
      c.world.cout.writes = [message, "\n"] ∧
      "\n".data = [Char.ofNat 10] ∧
      c.world.cout.contents = message ++ "\n" ∧
      c.world.cout.contents.length = message.length + 1 ∧
      message.length + 1 = 14 ∧
      c.world.cout.contents.data.dropLast = message.data ∧
      ∀ argv : List String, (invoke argv stdin).1 = c.world := by
  rcases reachable_cases hr with rfl | rfl | rfl | rfl | rfl <;>
    simp [Config.start] at hpc
  subst hpc
  refine ⟨"Hello, World!", rfl, rfl, rfl, rfl, ?_, rfl, ?_, fun _ => rfl⟩
  · have h : (main (World.fresh stdin)).1.cout.contents = "Hello, World!\n" := rfl
    show (main (World.fresh stdin)).1.cout.contents.length = _
    rw [h]; decide
  · have h : (main (World.fresh stdin)).1.cout.contents = "Hello, World!\n" := rfl
    show (main (World.fresh stdin)).1.cout.contents.data.dropLast = _
    rw [h]; decide

/-- Witness of C8 on fresh streams with empty standard input, at the configuration in
which `main` has returned. -/
theorem output_is_message_then_newline_witness :
    Reachable (World.fresh "")
      ⟨Pc.exited EXIT_SUCCESS, some "Hello, World!", (main (World.fresh "")).1⟩ ∧
    ∃ message : String,
      some "Hello, World!" = some message ∧
      (main (World.fresh "")).1.cout.contents = message ++ "\n" :=
  have hr : Reachable (World.fresh "")
      ⟨Pc.exited EXIT_SUCCESS, some "Hello, World!", (main (World.fresh "")).1⟩ :=
    Reachable.next (Reachable.next (Reachable.next (Reachable.next Reachable.start rfl) rfl)
      rfl) rfl
  ⟨hr,
    (output_is_message_then_newline "" _ EXIT_SUCCESS hr rfl).imp
      fun _ h => ⟨h.1, h.2.2.2.1⟩⟩

end Hello1
